import Mathlib

/-!
Shallow embedding of the GameTracker backend's Steam subsystem
(`src/backend/src/lib/steam-auth.ts`, `src/config/steam.ts`,
`src/lib/steam-api.ts`, `src/lib/auth.ts`) together with the parts of the
relational data model (`prisma/migrations/.../migration.sql`) that the
synchronization, authentication and rate-limiting logic manipulates.

Conventions used throughout:
- JavaScript `number` timestamps in milliseconds are `Int` (`nowMs`);
  Steam epoch timestamps in seconds are `Nat`.
- JavaScript `number | undefined` fields are `Option Nat` / `Option Int`;
  the source's truthiness tests (`!x`, `x || d`) are translated explicitly,
  so `undefined` and `0` (resp. the empty string) both count as falsy.
- Floating-point columns (`hoursPlayed`) are modelled as `ℚ`; the sync only
  combines them with `max` and a division by 60, so no rounding behaviour
  is claimed or used.
- The Prisma database is modelled as explicit lists of rows threaded
  through the functions; `findFirst` is `List.find?` and an `update` by
  primary key is an in-place replacement of the first matching row.
-/

namespace GameTracker

/-- Enum `GameStatus` from the Prisma schema (migration.sql). -/
inductive GameStatus where
  | PLAYING
  | COMPLETED
  | DROPPED
  | BACKLOG
deriving DecidableEq, Repr

/-- Enum `GameSource` from the Prisma schema (migration.sql). -/
inductive GameSource where
  | MANUAL
  | STEAM
deriving DecidableEq, Repr

/-- Enum `SteamSyncStatus` from the Prisma schema (migration.sql). -/
inductive SteamSyncStatus where
  | PENDING
  | SUCCESS
  | ERROR
deriving DecidableEq, Repr

/-- One item of the Steam owned-games response (`SteamGame` interface in
`steam-api.ts`); only the fields the sync reads are kept.  `name`,
`playtime_forever` and `rtime_last_played` are optional in the interface,
hence `Option`. -/
structure SteamGame where
  appid : Nat
  name : Option String
  playtime_forever : Option Nat
  rtime_last_played : Option Nat
deriving DecidableEq, Repr

/-- A row of the `games` table (migration.sql), restricted to the columns
the code reads or writes.  Timestamp columns are epoch milliseconds. -/
structure GameRow where
  title : String
  rating : Option ℚ
  hoursPlayed : ℚ
  status : GameStatus
  imageUrl : Option String
  lastPlayedAt : Option Int
  notes : Option String
  isDeleted : Bool
  source : GameSource
  steamAppId : Option String
  steamName : Option String
  steamPlaytime : Option Nat
  steamLastPlayed : Option Int
  steamImageUrl : Option String
  isHiddenOnSteam : Bool
  userId : String
deriving DecidableEq, Repr

/-- `SteamSyncOptions` from `steam-auth.ts`. -/
structure SteamSyncOptions where
  skipExisting : Bool
  updatePlaytime : Bool
  minimumPlaytime : Nat
  maxGamesToProcess : Option Nat
deriving DecidableEq, Repr

/-- `DEFAULT_OPTIONS` of `SteamSyncService`. -/
def DEFAULT_OPTIONS : SteamSyncOptions :=
  { skipExisting := true
    updatePlaytime := true
    minimumPlaytime := 0
    maxGamesToProcess := some 1000 }

/-- JavaScript truthiness of an optional string: `undefined` and the empty
string are falsy. -/
def strTruthy (o : Option String) : Bool :=
  match o with
  | none => false
  | some s => !(s = "")

/-- `SteamSyncService.inferGameStatus` (steam-auth.ts lines 526-554).
The source guards with `if (!lastPlayedTimestamp)`, a JavaScript
truthiness test, so both an absent value and an epoch of `0` fall into
the no-timestamp branch.  The source compares
`(Date.now() - lastPlayed*1000) / 86400000 < 7` in exact arithmetic;
over the integers this is `nowMs - t*1000 < 604800000`. -/
def inferGameStatus (playtimeMinutes : Nat) (lastPlayedTimestamp : Option Nat)
    (nowMs : Int) : GameStatus :=
  if playtimeMinutes = 0 then GameStatus.BACKLOG
  else
    match lastPlayedTimestamp with
    | none => GameStatus.BACKLOG
    | some t =>
      if t = 0 then GameStatus.BACKLOG
      else if nowMs - (t : Int) * 1000 < 604800000 then GameStatus.PLAYING
      else if 600 < playtimeMinutes then GameStatus.COMPLETED
      else GameStatus.BACKLOG

/-- Claim C1's status-inference rules transcribed literally from the spec:
playtime 0 gives Backlog, an absent last-played timestamp gives Backlog, a
last-played within 7 days of now gives Playing, otherwise playtime above
600 minutes gives Completed, otherwise Backlog.  (Used only to compare the
spec's wording against `inferGameStatus`.) -/
def claimC1Status (playtimeMinutes : Nat) (lastPlayedTimestamp : Option Nat)
    (nowMs : Int) : GameStatus :=
  if playtimeMinutes = 0 then GameStatus.BACKLOG
  else
    match lastPlayedTimestamp with
    | none => GameStatus.BACKLOG
    | some t =>
      if nowMs - (t : Int) * 1000 < 604800000 then GameStatus.PLAYING
      else if 600 < playtimeMinutes then GameStatus.COMPLETED
      else GameStatus.BACKLOG

/-- `SteamSyncService.generateSteamImageUrl`: a deterministic header-image
URL built from the app id. -/
def generateSteamImageUrl (steamAppId : String) : String :=
  "https://cdn.akamai.steamstatic.com/steam/apps/" ++ steamAppId ++ "/header.jpg"

/-- The row created by `processSteamGame` when no existing entry is found
(the `Prisma.GameCreateInput` literal in steam-auth.ts lines 459-483).
`title` uses the source's `steamGame.name || "Unknown Game"` (truthiness:
absent or empty name falls back); `hoursPlayed` is `playtimeMinutes / 60`;
`steamLastPlayed` / `lastPlayedAt` are set only when `rtime_last_played`
is truthy. -/
def createGameRow (userId : String) (g : SteamGame) (nowMs : Int) : GameRow :=
  let steamAppId := toString g.appid
  let playtimeMinutes := g.playtime_forever.getD 0
  let lastPlayedMs : Option Int :=
    match g.rtime_last_played with
    | none => none
    | some t => if t = 0 then none else some ((t : Int) * 1000)
  { title :=
      match g.name with
      | none => "Unknown Game"
      | some n => if n = "" then "Unknown Game" else n
    rating := none
    hoursPlayed := (playtimeMinutes : ℚ) / 60
    status := inferGameStatus playtimeMinutes g.rtime_last_played nowMs
    imageUrl := some (generateSteamImageUrl steamAppId)
    lastPlayedAt := lastPlayedMs
    notes := none
    isDeleted := false
    source := GameSource.STEAM
    steamAppId := some steamAppId
    steamName := g.name
    steamPlaytime := some playtimeMinutes
    steamLastPlayed := lastPlayedMs
    steamImageUrl := some (generateSteamImageUrl steamAppId)
    isHiddenOnSteam := false
    userId := userId }

/-- The update applied by `processSteamGame` to an existing entry when
`updatePlaytime` is set (the `updateData` object, steam-auth.ts lines
424-450): `steamPlaytime` is always overwritten with the reported minutes;
`steamLastPlayed` is overwritten only when `rtime_last_played` is truthy
(Prisma leaves a field unchanged when the update value is `undefined`);
`hoursPlayed` is raised to `max(old, minutes/60)` only when the reported
minutes strictly exceed `steamPlaytime || 0`; both image columns are
overwritten with the generated URL when either is falsy (absent or empty). -/
def updateExistingGame (existing : GameRow) (g : SteamGame) : GameRow :=
  let playtimeMinutes := g.playtime_forever.getD 0
  let newHours :=
    if existing.steamPlaytime.getD 0 < playtimeMinutes then
      max existing.hoursPlayed ((playtimeMinutes : ℚ) / 60)
    else existing.hoursPlayed
  let imgMissing := !(strTruthy existing.imageUrl) || !(strTruthy existing.steamImageUrl)
  let url := generateSteamImageUrl (toString g.appid)
  { existing with
    steamPlaytime := some playtimeMinutes
    steamLastPlayed :=
      match g.rtime_last_played with
      | none => existing.steamLastPlayed
      | some t => if t = 0 then existing.steamLastPlayed else some ((t : Int) * 1000)
    hoursPlayed := newHours
    imageUrl := if imgMissing then some url else existing.imageUrl
    steamImageUrl := if imgMissing then some url else existing.steamImageUrl }

/-- The `where` clause of the `prisma.game.findFirst` call in
`processSteamGame`: same user, same Steam app id, not soft-deleted. -/
def matchesKey (userId steamAppId : String) (r : GameRow) : Bool :=
  r.userId = userId && r.steamAppId = some steamAppId && r.isDeleted = false

/-- Replace the first element satisfying `p` by its image under `f`,
leaving everything else untouched.  This models a Prisma `update` keyed by
the primary key of the row previously returned by `findFirst`. -/
def replaceFirst (p : α → Bool) (f : α → α) : List α → List α
  | [] => []
  | a :: l => if p a then f a :: l else a :: replaceFirst p f l

/-- Per-item outcome of `processSteamGame`. -/
inductive ProcessOutcome where
  | imported
  | updated
  | skipped
deriving DecidableEq, Repr

/-- `SteamSyncService.processSteamGame` (steam-auth.ts lines 389-486),
acting on the list of `games` rows: skip when the reported playtime
(`playtime_forever || 0`) is below the minimum threshold; otherwise look
up an existing non-deleted row for (user, appid); update it when
`updatePlaytime` is set, skip it when `skipExisting` is set without
`updatePlaytime` (or when neither flag applies); create a new row when
none exists. -/
def processSteamGame (userId : String) (g : SteamGame)
    (options : SteamSyncOptions) (nowMs : Int) (games : List GameRow) :
    ProcessOutcome × List GameRow :=
  let steamAppId := toString g.appid
  let playtimeMinutes := g.playtime_forever.getD 0
  if playtimeMinutes < options.minimumPlaytime then (ProcessOutcome.skipped, games)
  else
    match games.find? (matchesKey userId steamAppId) with
    | some _ =>
      if options.skipExisting && !options.updatePlaytime then
        (ProcessOutcome.skipped, games)
      else if options.updatePlaytime then
        (ProcessOutcome.updated,
         replaceFirst (matchesKey userId steamAppId) (fun r => updateExistingGame r g) games)
      else (ProcessOutcome.skipped, games)
    | none => (ProcessOutcome.imported, games ++ [createGameRow userId g nowMs])

/-- Mutable counters accumulated by the per-game loop of
`syncUserLibrary` (the `result` object). -/
structure SyncCounts where
  gamesProcessed : Nat
  gamesImported : Nat
  gamesUpdated : Nat
  gamesSkipped : Nat
  errors : List String
deriving DecidableEq, Repr

/-- Add one successfully processed item's outcome to the counters:
`gamesProcessed` is always incremented, then exactly one of the three
outcome counters. -/
def addOutcome (o : ProcessOutcome) (c : SyncCounts) : SyncCounts :=
  { c with
    gamesProcessed := c.gamesProcessed + 1
    gamesImported := if o = ProcessOutcome.imported then c.gamesImported + 1 else c.gamesImported
    gamesUpdated := if o = ProcessOutcome.updated then c.gamesUpdated + 1 else c.gamesUpdated
    gamesSkipped := if o = ProcessOutcome.skipped then c.gamesSkipped + 1 else c.gamesSkipped }

/-- The per-item error message pushed by the `catch` inside the loop:
a JavaScript template literal, so an absent `name` prints as the string
`undefined`. -/
def itemErrorMessage (g : SteamGame) (msg : String) : String :=
  "Failed to process game " ++ g.name.getD ("undefined") ++ ": " ++ msg

/-- The per-game loop of `syncUserLibrary` (steam-auth.ts lines 306-339),
threading the `games` table through `processSteamGame`.  `fault` models
the database exceptions that `processSteamGame`'s awaited Prisma calls may
throw for an item: a faulted item leaves the table and all four counters
untouched and contributes one formatted message to `errors` (the
`try/catch` inside the loop).  The source iterates the items in order in
batches of 50 with a 100 ms pause between batches; the pauses do not touch
any state, so the loop is modelled flattened, in the same item order. -/
def runItems (userId : String) (options : SteamSyncOptions)
    (fault : SteamGame → Option String) (nowMs : Int) :
    List SteamGame → List GameRow → SyncCounts × List GameRow
  | [], games => (⟨0, 0, 0, 0, []⟩, games)
  | g :: rest, games =>
    match fault g with
    | some msg =>
      let r := runItems userId options fault nowMs rest games
      ({ r.1 with errors := itemErrorMessage g msg :: r.1.errors }, r.2)
    | none =>
      let p := processSteamGame userId g options nowMs games
      let r := runItems userId options fault nowMs rest p.2
      (addOutcome p.1 r.1, r.2)

/-- A row of the `steam_sync_logs` table (migration.sql); the counter
columns and `errorMessage` are nullable. -/
structure SyncLogRow where
  userId : String
  status : SteamSyncStatus
  gamesProcessed : Option Nat
  gamesImported : Option Nat
  gamesUpdated : Option Nat
  gamesSkipped : Option Nat
  errorMessage : Option String
  startedAt : Int
  completedAt : Option Int
deriving DecidableEq, Repr

/-- The projection of the `users` row read by `syncUserLibrary`
(`select: { steamId, steamSyncEnabled }`). -/
structure UserSteamInfo where
  steamId : Option String
  steamSyncEnabled : Bool
deriving DecidableEq, Repr

/-- The Steam owned-games response (`SteamOwnedGamesResponse`); the
source reads `ownedGamesResponse.games || []`, so the list is optional. -/
structure OwnedGamesResponse where
  game_count : Nat
  games : Option (List SteamGame)
deriving DecidableEq, Repr

/-- The read-only environment of one `syncUserLibrary` run: the user row
returned by `prisma.user.findUnique`, the result of
`steamApiService.getOwnedGames` (`Except.error` models a thrown fetch
error such as the rate-limit exception, `Except.ok none` a null response),
and the per-item database fault oracle passed on to `runItems`. -/
structure SyncEnv where
  user : Option UserSteamInfo
  ownedGames : Except String (Option OwnedGamesResponse)
  fault : SteamGame → Option String

/-- The database state threaded through `syncUserLibrary`: the `games`
rows, the `steam_sync_logs` rows, and the syncing user's `lastSteamSync`
column. -/
structure DbState where
  games : List GameRow
  syncLogs : List SyncLogRow
  lastSteamSync : Option Int

/-- `SteamSyncResult` from steam-auth.ts. -/
structure SteamSyncResult where
  success : Bool
  gamesProcessed : Nat
  gamesImported : Nat
  gamesUpdated : Nat
  gamesSkipped : Nat
  errors : List String
deriving DecidableEq, Repr

/-- The failure summary built in the `catch` block of `syncUserLibrary`:
`success: false`, all four counters zero, and the exception message as the
only error. -/
def failureResult (msg : String) : SteamSyncResult :=
  { success := false
    gamesProcessed := 0
    gamesImported := 0
    gamesUpdated := 0
    gamesSkipped := 0
    errors := [msg] }

/-- `SteamSyncService.syncUserLibrary` (steam-auth.ts lines 254-384).
A pending `steam_sync_logs` row is created first; the body then either
throws (no linked Steam account — `!user?.steamId`, a truthiness test, so
an empty-string id also throws —, sync disabled, fetch error, or null
owned-games response), in which case the log row is finalized with status
ERROR and the message and a zero-count failure summary is returned, or it
runs the per-game loop, stamps `lastSteamSync`, finalizes the log row with
status SUCCESS and the counts, and returns the summary (success stays
`true` even when per-item errors were collected).  The item list is capped
at `maxGamesToProcess || steamGames.length` (truthiness: an explicit cap
of `0` means no cap). -/
def syncUserLibrary (userId : String) (options : SteamSyncOptions)
    (env : SyncEnv) (nowMs : Int) (st : DbState) : SteamSyncResult × DbState :=
  let pendingLog : SyncLogRow :=
    { userId := userId
      status := SteamSyncStatus.PENDING
      gamesProcessed := none
      gamesImported := none
      gamesUpdated := none
      gamesSkipped := none
      errorMessage := none
      startedAt := nowMs
      completedAt := none }
  let body : Except String (SyncCounts × List GameRow) :=
    match env.user with
    | none => Except.error ("User does not have a linked Steam account")
    | some u =>
      match u.steamId with
      | none => Except.error ("User does not have a linked Steam account")
      | some sid =>
        if sid = "" then Except.error ("User does not have a linked Steam account")
        else if !u.steamSyncEnabled then
          Except.error ("Steam sync is disabled for this user")
        else
          match env.ownedGames with
          | Except.error e => Except.error e
          | Except.ok none =>
            Except.error ("Failed to fetch Steam games or profile is private")
          | Except.ok (some resp) =>
            let steamGames := resp.games.getD []
            let maxGames :=
              match options.maxGamesToProcess with
              | none => steamGames.length
              | some n => if n = 0 then steamGames.length else n
            Except.ok (runItems userId options env.fault nowMs (steamGames.take maxGames) st.games)
  match body with
  | Except.ok r =>
    ({ success := true
       gamesProcessed := r.1.gamesProcessed
       gamesImported := r.1.gamesImported
       gamesUpdated := r.1.gamesUpdated
       gamesSkipped := r.1.gamesSkipped
       errors := r.1.errors },
     { games := r.2
       syncLogs := st.syncLogs ++
         [{ pendingLog with
            status := SteamSyncStatus.SUCCESS
            gamesProcessed := some r.1.gamesProcessed
            gamesImported := some r.1.gamesImported
            gamesUpdated := some r.1.gamesUpdated
            gamesSkipped := some r.1.gamesSkipped
            completedAt := some nowMs }]
       lastSteamSync := some nowMs })
  | Except.error msg =>
    (failureResult msg,
     { games := st.games
       syncLogs := st.syncLogs ++
         [{ pendingLog with
            status := SteamSyncStatus.ERROR
            errorMessage := some msg
            completedAt := some nowMs }]
       lastSteamSync := st.lastSteamSync })

/-- The `where` filter of the `findFirst` in `canUserSync`: same user and
status in {SUCCESS, PENDING} (ERROR runs are ignored). -/
def eligibleLogFilter (userId : String) (r : SyncLogRow) : Bool :=
  r.userId = userId &&
    (r.status = SteamSyncStatus.SUCCESS || r.status = SteamSyncStatus.PENDING)

/-- Prisma's `findFirst` with `orderBy: { startedAt: "desc" }`: a row with
maximal `startedAt` among the candidates (the first such row; ties are
broken by list position, which Prisma leaves unspecified). -/
def pickLatest : List SyncLogRow → Option SyncLogRow
  | [] => none
  | r :: rest =>
    match pickLatest rest with
    | none => some r
    | some m => if r.startedAt < m.startedAt then some m else some r

/-- `SteamSyncService.canUserSync` (steam-auth.ts lines 570-598): the most
recent PENDING/SUCCESS run gates syncing behind a fixed 5-minute cooldown
from its `startedAt`; with no such run the user may sync.  Returns
(canSync, nextSyncTime). -/
def canUserSync (userId : String) (nowMs : Int) (logs : List SyncLogRow) :
    Bool × Option Int :=
  match pickLatest (logs.filter (eligibleLogFilter userId)) with
  | none => (true, none)
  | some lastSync =>
    let nextSyncTime := lastSync.startedAt + 5 * 60000
    if nowMs < nextSyncTime then (false, some nextSyncTime)
    else (true, none)

/-- `SteamApiService.checkRateLimit` (steam-api.ts lines 77-94), acting on
the shared `apiCallTimes` list: timestamps strictly older than 60 seconds
are shifted off the front (`while` loop), then the call is refused when
200 or more remain, else the current time is pushed and the call may
proceed.  Returns (allowed, new list). -/
def checkRateLimit (nowMs : Int) (apiCallTimes : List Int) : Bool × List Int :=
  let oneMinuteAgo := nowMs - 60000
  let pruned := apiCallTimes.dropWhile (fun t => t < oneMinuteAgo)
  if 200 ≤ pruned.length then (false, pruned)
  else (true, pruned ++ [nowMs])

/-- `SteamApiService.getRateLimitStatus` (steam-api.ts lines 243-257):
after the same front-pruning, the remaining capacity is
`max 0 (200 - length)` (natural subtraction) and the window resets 60
seconds after the oldest retained call. -/
def getRateLimitStatus (nowMs : Int) (apiCallTimes : List Int) : Nat × Int :=
  let oneMinuteAgo := nowMs - 60000
  let pruned := apiCallTimes.dropWhile (fun t => t < oneMinuteAgo)
  (200 - pruned.length,
   match pruned with
   | [] => nowMs
   | t :: _ => t + 60000)

/-- Run a sequence of guarded calls, one `checkRateLimit` per call time,
threading the shared timestamp list; returns the per-call outcomes and the
final list. -/
def simulateCalls : List Int → List Int → List Bool × List Int
  | [], ts => ([], ts)
  | c :: rest, ts =>
    let step := checkRateLimit c ts
    let r := simulateCalls rest step.2
    (step.1 :: r.1, r.2)

/-- A value of the `csrfTokens` map in steam-auth.ts:
`{ token, expires, userId }`. -/
structure CsrfEntry where
  token : String
  expires : Int
  userId : String
deriving DecidableEq, Repr

/-- The in-process `csrfTokens` map, as a function from token strings to
stored entries. -/
def CsrfStore : Type := String → Option CsrfEntry

/-- `Map.set`. -/
def csrfSet (store : CsrfStore) (k : String) (e : CsrfEntry) : CsrfStore :=
  fun s => if s = k then some e else store s

/-- `Map.delete` (deleting an absent key is a no-op). -/
def csrfDelete (store : CsrfStore) (k : String) : CsrfStore :=
  fun s => if s = k then none else store s

/-- `isValidSteamId` from `config/steam.ts`: the regular expression
`^76561[0-9]{12}$`, i.e. 17 characters, the fixed prefix `76561`, and
digits throughout (the five prefix characters are themselves digits, so
checking all 17 is equivalent to checking the remaining 12).  Stated over
the character list of the string. -/
def isValidSteamId (steamId : String) : Bool :=
  steamId.data.length = 17 &&
    steamId.data.take 5 = ['7', '6', '5', '6', '1'] &&
    steamId.data.all Char.isDigit

/-- `SteamAuthResult` from steam-auth.ts (`userId` is present only on a
successful attempt, `error` only on a failed one). -/
structure SteamAuthResult where
  steamId : String
  success : Bool
  error : Option String
  userId : Option String
deriving DecidableEq, Repr

/-- `SteamAuthService.generateAuthUrl` (steam-auth.ts lines 51-88),
restricted to its state-store effect: the freshly generated random token
`state` is passed in as a parameter (the source draws 32 random bytes),
stored with a 10-minute expiry, and embedded in the callback URL.  The
provider redirect URL obtained from the external OpenID library is not
modelled; the function returns the callback URL and the updated store. -/
def generateAuthUrl (userId : String) (state : String) (nowMs : Int)
    (store : CsrfStore) : String × CsrfStore :=
  (("http://localhost:3001/api/steam/auth/callback?state=").append state,
   csrfSet store state { token := state, expires := nowMs + 600000, userId := userId })

/-- The failure result literal used throughout `verifyCallback`. -/
def authFailure (msg : String) : SteamAuthResult :=
  { steamId := "", success := false, error := some msg, userId := none }

/-- `SteamAuthService.verifyCallback` (steam-auth.ts lines 93-201).
`modeOk` is the check `openid.mode === "id_res"`; `stateParam` is the
CSRF token extracted from the `openid.return_to` URL (`none` covers both a
missing `return_to` and a missing `state` query parameter); `assertion`
abstracts the external OpenID library's `verifyAssertion`: `none` when
verification fails, is unauthenticated, or carries no claimed identifier,
`some claimedSteamId` otherwise.  The token check: a missing or expired
token is rejected and deleted; a valid token is deleted immediately
(single use) before the assertion is examined. -/
def verifyCallback (modeOk : Bool) (stateParam : Option String)
    (assertion : Option String) (nowMs : Int) (store : CsrfStore) :
    SteamAuthResult × CsrfStore :=
  if !modeOk then
    (authFailure ("Invalid OpenID response - missing or invalid mode"), store)
  else
    match stateParam with
    | none => (authFailure ("Missing CSRF token in return_to URL"), store)
    | some state =>
      match store state with
      | none => (authFailure ("Invalid or expired CSRF token"), csrfDelete store state)
      | some storedToken =>
        if storedToken.expires < nowMs then
          (authFailure ("Invalid or expired CSRF token"), csrfDelete store state)
        else
          let store' := csrfDelete store state
          match assertion with
          | none => (authFailure ("Authentication failed"), store')
          | some steamId =>
            if isValidSteamId steamId then
              ({ steamId := steamId, success := true, error := none,
                 userId := some storedToken.userId }, store')
            else (authFailure ("Invalid Steam ID format"), store')

/-- The JWT claims object carried by the tokens of `lib/auth.ts`
(`userId` for both token kinds, `email` only for access tokens);
fields are optional because an arbitrary verified token need not carry
them. -/
structure JwtClaims where
  userId : Option String
  email : Option String
deriving DecidableEq, Repr

/-- Modelled from the spec: the external `jsonwebtoken` library is not
part of this repository.  A token is either a well-formed signed token —
the constructor records the claims, the signing secret (an ideal
unforgeable MAC: a signature verifies against exactly the secret that
produced it, and any tampering with the payload produces a different
`signed` value), the issuer/audience claims and the expiry — or an
arbitrary malformed string. -/
inductive Jwt where
  | signed (claims : JwtClaims) (secret : String) (iss : String) (aud : String) (expMs : Int)
  | malformed (raw : String)
deriving DecidableEq, Repr

/-- Modelled from the spec: `jwt.verify(token, secret, {issuer, audience})`
of the external `jsonwebtoken` library — signature, expiry, issuer and
audience are all checked and any failure (including malformed input) is
thrown, here an `Except.error`. -/
def jwtVerify (token : Jwt) (secret iss aud : String) (nowMs : Int) :
    Except String JwtClaims :=
  match token with
  | Jwt.malformed _ => Except.error ("jwt malformed")
  | Jwt.signed claims s i a expMs =>
    if s ≠ secret then Except.error ("invalid signature")
    else if expMs ≤ nowMs then Except.error ("jwt expired")
    else if i ≠ iss then Except.error ("jwt issuer invalid")
    else if a ≠ aud then Except.error ("jwt audience invalid")
    else Except.ok claims

/-- The access-token signing secret (default value from `lib/auth.ts`). -/
def JWT_SECRET : String := "your-secret-key-change-in-production"

/-- `generateAccessToken` (lib/auth.ts lines 42-51): signs
`{userId, email}` with the access secret, issuer `gametracker-api`,
audience `gametracker-client` and a 7-day expiry. -/
def generateAccessToken (userId email : String) (nowMs : Int) : Jwt :=
  Jwt.signed { userId := some userId, email := some email } JWT_SECRET
    ("gametracker-api") ("gametracker-client") (nowMs + 7 * 86400000)

/-- `verifyAccessToken` (lib/auth.ts lines 62-78): verify via the library
inside a `try/catch` that maps any thrown failure to `null`; the decoded
payload is accepted only when `decoded.userId && decoded.email` is truthy
(both present and non-empty), in which case the identity pair is
returned. -/
def verifyAccessToken (token : Jwt) (nowMs : Int) : Option (String × String) :=
  match jwtVerify token JWT_SECRET ("gametracker-api") ("gametracker-client") nowMs with
  | Except.error _ => none
  | Except.ok decoded =>
    match decoded.userId, decoded.email with
    | some u, some e => if u ≠ "" && e ≠ "" then some (u, e) else none
    | _, _ => none

/-- Claim C1's rules amended minimally: a reported last-played epoch of
`0` (what Steam reports for never-played games, and what the source's
truthiness test folds into the absent case) is treated as an absent
timestamp before the spec's rules are applied. -/
def claimC1StatusAmended (playtimeMinutes : Nat) (lastPlayedTimestamp : Option Nat)
    (nowMs : Int) : GameStatus :=
  claimC1Status playtimeMinutes
    (match lastPlayedTimestamp with
     | some 0 => none
     | x => x) nowMs

/-- Invariant of claim C3: at most one non-deleted `games` row per
(account, Steam app id) pair. -/
def uniquePerKey (games : List GameRow) : Prop :=
  ∀ uid a : String, games.countP (matchesKey uid a) ≤ 1

/-- Some non-deleted row for the given (account, Steam app id) pair is
present. -/
def hasEntry (uid a : String) (games : List GameRow) : Prop :=
  ∃ r ∈ games, matchesKey uid a r = true

/-- The finalized `steam_sync_logs` row written by the `catch` block of
`syncUserLibrary`: status ERROR, the exception message, no counts. -/
def errorLogRow (userId : String) (nowMs : Int) (msg : String) : SyncLogRow :=
  { userId := userId
    status := SteamSyncStatus.ERROR
    gamesProcessed := none
    gamesImported := none
    gamesUpdated := none
    gamesSkipped := none
    errorMessage := some msg
    startedAt := nowMs
    completedAt := some nowMs }

/-! Theorems.  Helper lemmas come first; each claim then gets exactly one
theorem (with a witness or counterexample where required). -/

/-- C1 (counterexample): the claim's rules, read over the optional
last-played epoch, predict Completed for a game with 700 reported minutes
whose last-played epoch is `0` (never played per Steam) at a present-day
clock, but `inferGameStatus` returns Backlog: the source's truthiness
test `!lastPlayedTimestamp` treats the epoch `0` as an absent timestamp. -/
theorem c1_status_inference_counterexample :
    inferGameStatus 700 (some 0) 1000000000000 = GameStatus.BACKLOG ∧
    claimC1Status 700 (some 0) 1000000000000 = GameStatus.COMPLETED ∧
    GameStatus.BACKLOG ≠ GameStatus.COMPLETED := by
  refine ⟨rfl, ?_, by decide⟩
  decide

/-- C1 (amended): the initial lifecycle status computed by
`inferGameStatus` — and hence the status of every row created by the
sync's import path — follows the claim's rules exactly, once a reported
last-played epoch of `0` is treated as an absent timestamp: playtime 0
gives Backlog; no (or zero) last-played timestamp gives Backlog;
last-played within 7 days of now gives Playing; otherwise playtime above
600 minutes gives Completed; otherwise Backlog. -/
theorem c1_status_inference :
    (∀ (playtimeMinutes : Nat) (lastPlayedTimestamp : Option Nat) (nowMs : Int),
        inferGameStatus playtimeMinutes lastPlayedTimestamp nowMs =
          claimC1StatusAmended playtimeMinutes lastPlayedTimestamp nowMs) ∧
    (∀ (uid : String) (g : SteamGame) (nowMs : Int),
        (createGameRow uid g nowMs).status =
          claimC1StatusAmended (g.playtime_forever.getD 0) g.rtime_last_played nowMs) := by
  have h1 : ∀ (pt : Nat) (lp : Option Nat) (now : Int),
      inferGameStatus pt lp now = claimC1StatusAmended pt lp now := by
    intro pt lp now
    cases lp with
    | none => rfl
    | some t => cases t <;> rfl
  exact ⟨h1, fun uid g now => h1 _ _ _⟩

/-- Unfolding lemma: how the update path recomputes `hoursPlayed`. -/
theorem updateExistingGame_hoursPlayed (g : GameRow) (sg : SteamGame) :
    (updateExistingGame g sg).hoursPlayed =
      if g.steamPlaytime.getD 0 < sg.playtime_forever.getD 0 then
        max g.hoursPlayed ((sg.playtime_forever.getD 0 : ℚ) / 60)
      else g.hoursPlayed := rfl

/-- C2: the monotonic hours ratchet.  For an existing entry updated by a
sync with the update-playtime option, `hoursPlayed` never decreases; it is
raised to `max(old hours, minutes/60)` exactly when the newly reported
playtime strictly exceeds the recorded `steamPlaytime` (missing treated as
0) and is left unchanged otherwise; the update path of `processSteamGame`
applies exactly this update to the existing row; and in particular with
`hoursPlayed = 10` and recorded playtime 300 a report of 250 leaves 10 in
place while a report of 700 yields `max 10 (700/60)`. -/
theorem c2_monotonic_hours_ratchet :
    (∀ (g : GameRow) (sg : SteamGame),
        g.hoursPlayed ≤ (updateExistingGame g sg).hoursPlayed) ∧
    (∀ (g : GameRow) (sg : SteamGame),
        g.steamPlaytime.getD 0 < sg.playtime_forever.getD 0 →
        (updateExistingGame g sg).hoursPlayed =
          max g.hoursPlayed ((sg.playtime_forever.getD 0 : ℚ) / 60)) ∧
    (∀ (g : GameRow) (sg : SteamGame),
        sg.playtime_forever.getD 0 ≤ g.steamPlaytime.getD 0 →
        (updateExistingGame g sg).hoursPlayed = g.hoursPlayed) ∧
    (∀ (uid : String) (sg : SteamGame) (opts : SteamSyncOptions) (now : Int)
        (games : List GameRow) (g : GameRow),
        opts.updatePlaytime = true →
        opts.minimumPlaytime ≤ sg.playtime_forever.getD 0 →
        games.find? (matchesKey uid (toString sg.appid)) = some g →
        processSteamGame uid sg opts now games =
          (ProcessOutcome.updated,
            replaceFirst (matchesKey uid (toString sg.appid))
              (fun r => updateExistingGame r sg) games)) ∧
    (∀ (g : GameRow) (sg : SteamGame),
        g.hoursPlayed = 10 → g.steamPlaytime = some 300 →
        ((sg.playtime_forever = some 250 →
            (updateExistingGame g sg).hoursPlayed = 10) ∧
         (sg.playtime_forever = some 700 →
            (updateExistingGame g sg).hoursPlayed = max 10 (700 / 60)))) := by
  refine ⟨?_, ?_, ?_, ?_, ?_⟩
  · intro g sg
    rw [updateExistingGame_hoursPlayed]
    split
    · exact le_max_left _ _
    · exact le_refl _
  · intro g sg h
    rw [updateExistingGame_hoursPlayed, if_pos h]
  · intro g sg h
    rw [updateExistingGame_hoursPlayed, if_neg (not_lt.mpr h)]
  · intro uid sg opts now games g hup hmin hfind
    simp only [processSteamGame]
    rw [if_neg (by omega), hfind, hup]
    simp
  · intro g sg h10 h300
    constructor
    · intro h250
      rw [updateExistingGame_hoursPlayed, h10, h300, h250]
      norm_num
    · intro h700
      rw [updateExistingGame_hoursPlayed, h10, h300, h700]
      norm_num

/-- C2 (witness): the two concrete ratchet scenarios from the claim,
instantiated on an explicit existing row with 10 hours played and 300
recorded minutes. -/
theorem c2_monotonic_hours_ratchet_witness :
    (updateExistingGame
        ⟨"Half-Life", none, 10, GameStatus.BACKLOG, none, none, none, false,
          GameSource.STEAM, some ("70"), none, some 300, none, none, false, "u1"⟩
        ⟨70, some ("Half-Life"), some 250, none⟩).hoursPlayed = 10 ∧
    (updateExistingGame
        ⟨"Half-Life", none, 10, GameStatus.BACKLOG, none, none, none, false,
          GameSource.STEAM, some ("70"), none, some 300, none, none, false, "u1"⟩
        ⟨70, some ("Half-Life"), some 700, none⟩).hoursPlayed = max 10 (700 / 60) :=
  ⟨(c2_monotonic_hours_ratchet.2.2.2.2 _ _ rfl rfl).1 rfl,
   (c2_monotonic_hours_ratchet.2.2.2.2 _ _ rfl rfl).2 rfl⟩

/-- C9: when a sync updates an existing entry, cover images are backfilled
only when one of the two image fields is unpopulated — an entry whose
`imageUrl` and `steamImageUrl` are both populated (present and non-empty)
keeps both unchanged — and apart from `steamPlaytime` (reported playtime),
`steamLastPlayed` (last played), `hoursPlayed` and the two cover-image
fields, every other column of the row is left untouched. -/
theorem c9_update_cover_backfill_frame :
    ∀ (g : GameRow) (sg : SteamGame),
      (strTruthy g.imageUrl = true → strTruthy g.steamImageUrl = true →
        (updateExistingGame g sg).imageUrl = g.imageUrl ∧
        (updateExistingGame g sg).steamImageUrl = g.steamImageUrl) ∧
      (updateExistingGame g sg).title = g.title ∧
      (updateExistingGame g sg).rating = g.rating ∧
      (updateExistingGame g sg).status = g.status ∧
      (updateExistingGame g sg).notes = g.notes ∧
      (updateExistingGame g sg).lastPlayedAt = g.lastPlayedAt ∧
      (updateExistingGame g sg).isDeleted = g.isDeleted ∧
      (updateExistingGame g sg).source = g.source ∧
      (updateExistingGame g sg).steamAppId = g.steamAppId ∧
      (updateExistingGame g sg).steamName = g.steamName ∧
      (updateExistingGame g sg).isHiddenOnSteam = g.isHiddenOnSteam ∧
      (updateExistingGame g sg).userId = g.userId := by
  intro g sg
  refine ⟨?_, rfl, rfl, rfl, rfl, rfl, rfl, rfl, rfl, rfl, rfl, rfl⟩
  intro h1 h2
  constructor <;> simp [updateExistingGame, h1, h2]

/-- C9 (witness): an entry with both cover fields populated keeps both
through an update. -/
theorem c9_update_cover_backfill_frame_witness :
    (updateExistingGame
        ⟨"Portal", none, 3, GameStatus.PLAYING, some ("a.jpg"), none, none, false,
          GameSource.STEAM, some ("400"), none, some 60, none, some ("b.jpg"), false, "u1"⟩
        ⟨400, some ("Portal"), some 90, none⟩).imageUrl = some ("a.jpg") ∧
    (updateExistingGame
        ⟨"Portal", none, 3, GameStatus.PLAYING, some ("a.jpg"), none, none, false,
          GameSource.STEAM, some ("400"), none, some 60, none, some ("b.jpg"), false, "u1"⟩
        ⟨400, some ("Portal"), some 90, none⟩).steamImageUrl = some ("b.jpg") :=
  ⟨((c9_update_cover_backfill_frame _ _).1 (by decide) (by decide)).1,
   ((c9_update_cover_backfill_frame _ _).1 (by decide) (by decide)).2⟩

/-- Replacing one row preserves the length of the table. -/
theorem replaceFirst_length (p : α → Bool) (f : α → α) (l : List α) :
    (replaceFirst p f l).length = l.length := by
  induction l with
  | nil => rfl
  | cons a l ih =>
    simp only [replaceFirst]
    split <;> simp [ih]

/-- Replacing one row by an image that preserves a predicate preserves
the predicate's count. -/
theorem countP_replaceFirst (p q : α → Bool) (f : α → α) (l : List α)
    (h : ∀ a, q (f a) = q a) :
    (replaceFirst p f l).countP q = l.countP q := by
  induction l with
  | nil => rfl
  | cons a l ih =>
    simp only [replaceFirst]
    split
    · simp [List.countP_cons, h]
    · simp [List.countP_cons, ih]

/-- Replacing one row by an image that preserves a predicate preserves
the existence of a row satisfying it. -/
theorem replaceFirst_exists (p q : α → Bool) (f : α → α) (l : List α)
    (h : ∀ a, q (f a) = q a) (he : ∃ r ∈ l, q r = true) :
    ∃ r ∈ replaceFirst p f l, q r = true := by
  induction l with
  | nil => simp at he
  | cons a l ih =>
    obtain ⟨r, hr, hq⟩ := he
    simp only [replaceFirst]
    split
    · rcases List.mem_cons.mp hr with h1 | h1
      · exact ⟨f a, List.mem_cons_self _ _, by rw [h]; rw [h1] at hq; exact hq⟩
      · exact ⟨r, List.mem_cons_of_mem _ h1, hq⟩
    · rcases List.mem_cons.mp hr with h1 | h1
      · exact ⟨a, List.mem_cons_self _ _, h1 ▸ hq⟩
      · obtain ⟨r', hr', hq'⟩ := ih ⟨r, h1, hq⟩
        exact ⟨r', List.mem_cons_of_mem _ hr', hq'⟩

/-- The update path never touches the user id, the Steam app id or the
soft-delete flag, so the lookup key is preserved. -/
theorem matchesKey_updateExistingGame (u a : String) (r : GameRow) (sg : SteamGame) :
    matchesKey u a (updateExistingGame r sg) = matchesKey u a r := rfl

/-- Projection of the created row: owner. -/
theorem createGameRow_userId (uid : String) (sg : SteamGame) (now : Int) :
    (createGameRow uid sg now).userId = uid := rfl

/-- Projection of the created row: Steam app id. -/
theorem createGameRow_steamAppId (uid : String) (sg : SteamGame) (now : Int) :
    (createGameRow uid sg now).steamAppId = some (toString sg.appid) := rfl

/-- Projection of the created row: not soft-deleted. -/
theorem createGameRow_isDeleted (uid : String) (sg : SteamGame) (now : Int) :
    (createGameRow uid sg now).isDeleted = false := rfl

/-- Case analysis on one `processSteamGame` step: the table is unchanged,
or the first matching row is replaced by its update, or (when the lookup
found nothing) the created row is appended. -/
theorem processSteamGame_cases (uid : String) (sg : SteamGame)
    (opts : SteamSyncOptions) (now : Int) (games : List GameRow) :
    ((processSteamGame uid sg opts now games).2 = games ∧
      (processSteamGame uid sg opts now games).1 = ProcessOutcome.skipped) ∨
    ((processSteamGame uid sg opts now games).2 =
        replaceFirst (matchesKey uid (toString sg.appid))
          (fun r => updateExistingGame r sg) games ∧
      (processSteamGame uid sg opts now games).1 = ProcessOutcome.updated) ∨
    ((processSteamGame uid sg opts now games).2 =
        games ++ [createGameRow uid sg now] ∧
      games.find? (matchesKey uid (toString sg.appid)) = none ∧
      (processSteamGame uid sg opts now games).1 = ProcessOutcome.imported) := by
  by_cases hmin : sg.playtime_forever.getD 0 < opts.minimumPlaytime
  · left
    simp only [processSteamGame]
    rw [if_pos hmin]
    exact ⟨rfl, rfl⟩
  · cases hf : games.find? (matchesKey uid (toString sg.appid)) with
    | some g =>
      simp only [processSteamGame]
      rw [if_neg hmin, hf]
      by_cases h1 : (opts.skipExisting && !opts.updatePlaytime) = true
      · left; rw [if_pos h1]; exact ⟨rfl, rfl⟩
      · rw [if_neg h1]
        by_cases h2 : opts.updatePlaytime = true
        · right; left; rw [if_pos h2]; exact ⟨rfl, rfl⟩
        · left; rw [if_neg h2]; exact ⟨rfl, rfl⟩
    | none =>
      right; right
      refine ⟨?_, rfl, ?_⟩ <;>
        (simp only [processSteamGame]; rw [if_neg hmin, hf])

/-- One `processSteamGame` step preserves the at-most-one-row-per-key
invariant. -/
theorem processSteamGame_uniquePerKey (uid : String) (sg : SteamGame)
    (opts : SteamSyncOptions) (now : Int) (games : List GameRow)
    (h : uniquePerKey games) :
    uniquePerKey (processSteamGame uid sg opts now games).2 := by
  rcases processSteamGame_cases uid sg opts now games with ⟨h2, _⟩ | ⟨h2, _⟩ | ⟨h2, hfind, _⟩
  · rw [h2]; exact h
  · rw [h2]
    intro u a
    rw [countP_replaceFirst _ _ _ _ (fun r => matchesKey_updateExistingGame u a r sg)]
    exact h u a
  · rw [h2]
    intro u a
    rw [List.countP_append]
    by_cases hq : matchesKey u a (createGameRow uid sg now) = true
    · have hk : uid = u ∧ toString sg.appid = a := by
        simpa [matchesKey, createGameRow_userId, createGameRow_steamAppId,
          createGameRow_isDeleted] using hq
      have hzero : games.countP (matchesKey u a) = 0 := by
        rw [List.countP_eq_zero]
        intro r hr
        rw [← hk.1, ← hk.2]
        exact List.find?_eq_none.mp hfind r hr
      simp [hzero, hq]
    · have hone : List.countP (matchesKey u a) [createGameRow uid sg now] = 0 := by
        simp [hq]
      rw [hone]
      simpa using h u a

/-- One `processSteamGame` step preserves the presence of an entry for any
key. -/
theorem hasEntry_processSteamGame_mono (u a uid : String) (sg : SteamGame)
    (opts : SteamSyncOptions) (now : Int) (games : List GameRow)
    (h : hasEntry u a games) :
    hasEntry u a (processSteamGame uid sg opts now games).2 := by
  rcases processSteamGame_cases uid sg opts now games with ⟨h2, _⟩ | ⟨h2, _⟩ | ⟨h2, _, _⟩
  · rw [h2]; exact h
  · rw [h2]
    exact replaceFirst_exists _ _ _ _ (fun r => matchesKey_updateExistingGame u a r sg) h
  · rw [h2]
    obtain ⟨r, hr, hq⟩ := h
    exact ⟨r, List.mem_append_left _ hr, hq⟩

/-- After processing an item whose reported playtime passes the minimum
threshold, an entry for that item's key exists. -/
theorem hasEntry_processSteamGame_self (uid : String) (sg : SteamGame)
    (opts : SteamSyncOptions) (now : Int) (games : List GameRow)
    (hmin : opts.minimumPlaytime ≤ sg.playtime_forever.getD 0) :
    hasEntry uid (toString sg.appid) (processSteamGame uid sg opts now games).2 := by
  cases hf : games.find? (matchesKey uid (toString sg.appid)) with
  | some r =>
    exact hasEntry_processSteamGame_mono _ _ _ _ _ _ _
      ⟨r, List.mem_of_find?_eq_some hf, List.find?_some hf⟩
  | none =>
    have h2 : (processSteamGame uid sg opts now games).2 =
        games ++ [createGameRow uid sg now] := by
      simp only [processSteamGame]
      rw [if_neg (by omega), hf]
    rw [h2]
    refine ⟨createGameRow uid sg now, List.mem_append_right _ (List.mem_singleton_self _), ?_⟩
    simp [matchesKey, createGameRow_userId, createGameRow_steamAppId, createGameRow_isDeleted]

/-- When an entry for the item's key is already present, the step never
imports and never changes the number of rows. -/
theorem processSteamGame_of_hasEntry (uid : String) (sg : SteamGame)
    (opts : SteamSyncOptions) (now : Int) (games : List GameRow)
    (h : hasEntry uid (toString sg.appid) games) :
    (processSteamGame uid sg opts now games).1 ≠ ProcessOutcome.imported ∧
    (processSteamGame uid sg opts now games).2.length = games.length := by
  rcases processSteamGame_cases uid sg opts now games with ⟨h2, h1⟩ | ⟨h2, h1⟩ | ⟨h2, hfind, h1⟩
  · exact ⟨by rw [h1]; simp, by rw [h2]⟩
  · exact ⟨by rw [h1]; simp, by rw [h2, replaceFirst_length]⟩
  · obtain ⟨r, hr, hq⟩ := h
    exact absurd hq (by simpa using List.find?_eq_none.mp hfind r hr)

/-- The sync loop preserves the presence of an entry for any key. -/
theorem runItems_hasEntry_mono (u a uid : String) (opts : SteamSyncOptions)
    (fault : SteamGame → Option String) (now : Int) :
    ∀ (items : List SteamGame) (games : List GameRow),
      hasEntry u a games →
      hasEntry u a (runItems uid opts fault now items games).2 := by
  intro items
  induction items with
  | nil =>
    intro games h
    simpa only [runItems] using h
  | cons g rest ih =>
    intro games h
    simp only [runItems]
    cases hfg : fault g with
    | some m => exact ih games h
    | none => exact ih _ (hasEntry_processSteamGame_mono u a uid g opts now games h)

/-- The sync loop preserves the at-most-one-row-per-key invariant. -/
theorem runItems_uniquePerKey (uid : String) (opts : SteamSyncOptions)
    (fault : SteamGame → Option String) (now : Int) :
    ∀ (items : List SteamGame) (games : List GameRow),
      uniquePerKey games →
      uniquePerKey (runItems uid opts fault now items games).2 := by
  intro items
  induction items with
  | nil =>
    intro games h
    simpa only [runItems] using h
  | cons g rest ih =>
    intro games h
    simp only [runItems]
    cases hfg : fault g with
    | some m => exact ih games h
    | none => exact ih _ (processSteamGame_uniquePerKey uid g opts now games h)

/-- After a fault-free loop run, every item that passes the minimum
playtime threshold has an entry in the resulting table. -/
theorem runItems_establishes (uid : String) (opts : SteamSyncOptions) (now : Int) :
    ∀ (items : List SteamGame) (games : List GameRow) (g : SteamGame),
      g ∈ items → opts.minimumPlaytime ≤ g.playtime_forever.getD 0 →
      hasEntry uid (toString g.appid)
        (runItems uid opts (fun _ => none) now items games).2 := by
  intro items
  induction items with
  | nil =>
    intro games g hg
    exact absurd hg (List.not_mem_nil g)
  | cons gh rest ih =>
    intro games g hg hmin
    simp only [runItems]
    rcases List.mem_cons.mp hg with rfl | hmem
    · exact runItems_hasEntry_mono _ _ _ _ _ _ rest _
        (hasEntry_processSteamGame_self uid g opts now games hmin)
    · exact ih _ g hmem hmin

/-- When every item passing the threshold already has an entry, a loop run
imports nothing and leaves the number of rows unchanged. -/
theorem runItems_no_new_imports (uid : String) (opts : SteamSyncOptions)
    (fault : SteamGame → Option String) (now : Int) :
    ∀ (items : List SteamGame) (games : List GameRow),
      (∀ g ∈ items, opts.minimumPlaytime ≤ g.playtime_forever.getD 0 →
          hasEntry uid (toString g.appid) games) →
      (runItems uid opts fault now items games).1.gamesImported = 0 ∧
      (runItems uid opts fault now items games).2.length = games.length := by
  intro items
  induction items with
  | nil =>
    intro games _
    exact ⟨rfl, rfl⟩
  | cons g rest ih =>
    intro games h
    simp only [runItems]
    cases hfg : fault g with
    | some m => exact ih games (fun g' hg' hm => h g' (List.mem_cons_of_mem _ hg') hm)
    | none =>
      by_cases hmin : g.playtime_forever.getD 0 < opts.minimumPlaytime
      · have hp : processSteamGame uid g opts now games = (ProcessOutcome.skipped, games) := by
          simp only [processSteamGame]
          rw [if_pos hmin]
        rw [hp]
        have hr := ih games (fun g' hg' hm => h g' (List.mem_cons_of_mem _ hg') hm)
        exact ⟨by simp [addOutcome, hr.1], hr.2⟩
      · have hhe := h g (List.mem_cons_self _ _) (le_of_not_lt hmin)
        have hne := processSteamGame_of_hasEntry uid g opts now games hhe
        have hrest := ih (processSteamGame uid g opts now games).2
          (fun g' hg' hm =>
            hasEntry_processSteamGame_mono _ _ uid g opts now games
              (h g' (List.mem_cons_of_mem _ hg') hm))
        refine ⟨?_, by rw [hrest.2, hne.2]⟩
        simp [addOutcome, hne.1, hrest.1]

/-- C3: at most one non-deleted entry per (account, Steam app id): the
sync loop preserves this invariant for every item list, option set and
fault pattern; and a fault-free repeat run over the same upstream item
list imports zero new games and adds no row — every already-present item
leads to an update or a skip, never to a duplicate entry. -/
theorem c3_unique_entry_idempotent_resync :
    (∀ (uid : String) (opts : SteamSyncOptions) (fault : SteamGame → Option String)
        (now : Int) (items : List SteamGame) (games : List GameRow),
        uniquePerKey games →
        uniquePerKey (runItems uid opts fault now items games).2) ∧
    (∀ (uid : String) (opts : SteamSyncOptions) (now : Int)
        (items : List SteamGame) (games : List GameRow),
        (runItems uid opts (fun _ => none) now items
            (runItems uid opts (fun _ => none) now items games).2).1.gamesImported = 0 ∧
        (runItems uid opts (fun _ => none) now items
            (runItems uid opts (fun _ => none) now items games).2).2.length =
          (runItems uid opts (fun _ => none) now items games).2.length) := by
  constructor
  · intro uid opts fault now items games h
    exact runItems_uniquePerKey uid opts fault now items games h
  · intro uid opts now items games
    exact runItems_no_new_imports uid opts (fun _ => none) now items
      (runItems uid opts (fun _ => none) now items games).2
      (fun g hg hm => runItems_establishes uid opts now items games g hg hm)

/-- C3 (witness): concrete two-item library synced twice from an empty
table — the invariant holds afterwards and the second run imports
nothing. -/
theorem c3_unique_entry_idempotent_resync_witness :
    uniquePerKey
      (runItems "u1" DEFAULT_OPTIONS (fun _ => none) 0
        [⟨10, some ("A"), some 30, none⟩, ⟨20, some ("B"), some 45, some 1700000000⟩]
        []).2 ∧
    (runItems "u1" DEFAULT_OPTIONS (fun _ => none) 0
        [⟨10, some ("A"), some 30, none⟩, ⟨20, some ("B"), some 45, some 1700000000⟩]
        (runItems "u1" DEFAULT_OPTIONS (fun _ => none) 0
          [⟨10, some ("A"), some 30, none⟩, ⟨20, some ("B"), some 45, some 1700000000⟩]
          []).2).1.gamesImported = 0 :=
  ⟨c3_unique_entry_idempotent_resync.1 _ DEFAULT_OPTIONS _ 0 _ []
      (fun u a => by simp),
   (c3_unique_entry_idempotent_resync.2 _ DEFAULT_OPTIONS 0 _ []).1⟩

/-- Per-item loop accounting: together the counters and the error list
decompose the item list. -/
theorem runItems_counts (uid : String) (opts : SteamSyncOptions)
    (fault : SteamGame → Option String) (now : Int) :
    ∀ (items : List SteamGame) (games : List GameRow),
      (runItems uid opts fault now items games).1.gamesProcessed =
          (runItems uid opts fault now items games).1.gamesImported +
          (runItems uid opts fault now items games).1.gamesUpdated +
          (runItems uid opts fault now items games).1.gamesSkipped ∧
      (runItems uid opts fault now items games).1.gamesProcessed =
          items.countP (fun g => (fault g).isNone) ∧
      (runItems uid opts fault now items games).1.errors =
          items.filterMap (fun g => (fault g).map (itemErrorMessage g)) := by
  intro items
  induction items with
  | nil =>
    intro games
    refine ⟨rfl, by simp [runItems], by simp [runItems]⟩
  | cons g rest ih =>
    intro games
    simp only [runItems]
    cases hfg : fault g with
    | some m =>
      have hr := ih games
      refine ⟨hr.1, ?_, ?_⟩
      · simpa [List.countP_cons, hfg] using hr.2.1
      · simpa [List.filterMap_cons, hfg] using hr.2.2
    | none =>
      have hr := ih (processSteamGame uid g opts now games).2
      refine ⟨?_, ?_, ?_⟩
      · cases ho : (processSteamGame uid g opts now games).1 <;>
          simp [addOutcome, ho] <;> omega
      · simp [addOutcome, List.countP_cons, hfg]
        exact hr.2.1
      · simpa [addOutcome, List.filterMap_cons, hfg] using hr.2.2

/-- C10: loop accounting.  For every run of the per-game loop the
processed count equals imported + updated + skipped; the processed count
is exactly the number of items whose per-item processing did not throw;
the error list carries exactly one formatted message per throwing item;
and for every completed `syncUserLibrary` call (success or failure) the
returned summary satisfies processed = imported + updated + skipped. -/
theorem c10_sync_counts_invariant :
    (∀ (uid : String) (opts : SteamSyncOptions) (fault : SteamGame → Option String)
        (now : Int) (items : List SteamGame) (games : List GameRow),
        (runItems uid opts fault now items games).1.gamesProcessed =
            (runItems uid opts fault now items games).1.gamesImported +
            (runItems uid opts fault now items games).1.gamesUpdated +
            (runItems uid opts fault now items games).1.gamesSkipped ∧
        (runItems uid opts fault now items games).1.gamesProcessed =
            items.countP (fun g => (fault g).isNone) ∧
        (runItems uid opts fault now items games).1.errors =
            items.filterMap (fun g => (fault g).map (itemErrorMessage g))) ∧
    (∀ (uid : String) (opts : SteamSyncOptions) (env : SyncEnv) (now : Int)
        (st : DbState),
        (syncUserLibrary uid opts env now st).1.gamesProcessed =
            (syncUserLibrary uid opts env now st).1.gamesImported +
            (syncUserLibrary uid opts env now st).1.gamesUpdated +
            (syncUserLibrary uid opts env now st).1.gamesSkipped) := by
  constructor
  · intro uid opts fault now items games
    exact runItems_counts uid opts fault now items games
  · intro uid opts env now st
    rcases env with ⟨user, owned, fault⟩
    cases user with
    | none => simp [syncUserLibrary, failureResult]
    | some u =>
      cases hs : u.steamId with
      | none => simp [syncUserLibrary, hs, failureResult]
      | some sid =>
        by_cases hsid : sid = ""
        · simp [syncUserLibrary, hs, hsid, failureResult]
        · by_cases hen : u.steamSyncEnabled = true
          · cases owned with
            | error e => simp [syncUserLibrary, hs, hsid, hen, failureResult]
            | ok o =>
              cases o with
              | none => simp [syncUserLibrary, hs, hsid, hen, failureResult]
              | some resp =>
                simp only [syncUserLibrary, hs, hsid, hen]
                simp
                exact (runItems_counts _ _ _ _ _ _).1
          · simp [syncUserLibrary, hs, hsid, hen, failureResult]

/-- C7: every fail-fast path of `syncUserLibrary` — no user row, no linked
Steam id (absent or empty), sync disabled, a throwing owned-games fetch,
or a null owned-games response — finalizes the pending sync-run row with
status ERROR and the exception message and returns the failure summary
with all four counts equal to zero. -/
theorem c7_error_path_zero_counts :
    ∀ (uid : String) (opts : SteamSyncOptions) (env : SyncEnv) (now : Int)
      (st : DbState),
      (env.user = none →
        syncUserLibrary uid opts env now st =
          (failureResult ("User does not have a linked Steam account"),
           ⟨st.games,
            st.syncLogs ++ [errorLogRow uid now ("User does not have a linked Steam account")],
            st.lastSteamSync⟩)) ∧
      (∀ u, env.user = some u → u.steamId = none →
        syncUserLibrary uid opts env now st =
          (failureResult ("User does not have a linked Steam account"),
           ⟨st.games,
            st.syncLogs ++ [errorLogRow uid now ("User does not have a linked Steam account")],
            st.lastSteamSync⟩)) ∧
      (∀ u, env.user = some u → u.steamId = some ("") →
        syncUserLibrary uid opts env now st =
          (failureResult ("User does not have a linked Steam account"),
           ⟨st.games,
            st.syncLogs ++ [errorLogRow uid now ("User does not have a linked Steam account")],
            st.lastSteamSync⟩)) ∧
      (∀ u sid, env.user = some u → u.steamId = some sid → sid ≠ "" →
        u.steamSyncEnabled = false →
        syncUserLibrary uid opts env now st =
          (failureResult ("Steam sync is disabled for this user"),
           ⟨st.games,
            st.syncLogs ++ [errorLogRow uid now ("Steam sync is disabled for this user")],
            st.lastSteamSync⟩)) ∧
      (∀ u sid e, env.user = some u → u.steamId = some sid → sid ≠ "" →
        u.steamSyncEnabled = true → env.ownedGames = Except.error e →
        syncUserLibrary uid opts env now st =
          (failureResult e,
           ⟨st.games, st.syncLogs ++ [errorLogRow uid now e], st.lastSteamSync⟩)) ∧
      (∀ u sid, env.user = some u → u.steamId = some sid → sid ≠ "" →
        u.steamSyncEnabled = true → env.ownedGames = Except.ok none →
        syncUserLibrary uid opts env now st =
          (failureResult ("Failed to fetch Steam games or profile is private"),
           ⟨st.games,
            st.syncLogs ++
              [errorLogRow uid now ("Failed to fetch Steam games or profile is private")],
            st.lastSteamSync⟩)) := by
  intro uid opts env now st
  refine ⟨?_, ?_, ?_, ?_, ?_, ?_⟩
  · intro h
    simp [syncUserLibrary, h, failureResult, errorLogRow]
  · intro u h1 h2
    simp [syncUserLibrary, h1, h2, failureResult, errorLogRow]
  · intro u h1 h2
    simp [syncUserLibrary, h1, h2, failureResult, errorLogRow]
  · intro u sid h1 h2 h3 h4
    simp [syncUserLibrary, h1, h2, h3, h4, failureResult, errorLogRow]
  · intro u sid e h1 h2 h3 h4 h5
    simp [syncUserLibrary, h1, h2, h3, h4, h5, failureResult, errorLogRow]
  · intro u sid h1 h2 h3 h4 h5
    simp [syncUserLibrary, h1, h2, h3, h4, h5, failureResult, errorLogRow]

/-- C7 (witness): a sync attempt for a user row that does not exist marks
the run ERROR with the no-linked-account message and returns the
zero-count failure summary. -/
theorem c7_error_path_zero_counts_witness :
    syncUserLibrary "u1" DEFAULT_OPTIONS
        ⟨none, Except.ok none, fun _ => none⟩ 5 ⟨[], [], none⟩ =
      (failureResult ("User does not have a linked Steam account"),
       ⟨[], [errorLogRow "u1" 5 ("User does not have a linked Steam account")], none⟩) := by
  have h :=
    (c7_error_path_zero_counts "u1" DEFAULT_OPTIONS
      ⟨none, Except.ok none, fun _ => none⟩ 5 ⟨[], [], none⟩).1 rfl
  simpa using h

/-- `pickLatest` returns `none` only on the empty candidate list. -/
theorem pickLatest_eq_none :
    ∀ (l : List SyncLogRow), pickLatest l = none → l = [] := by
  intro l
  cases l with
  | nil => intro _; rfl
  | cons r rest =>
    intro h
    simp only [pickLatest] at h
    cases hp : pickLatest rest with
    | none => simp [hp] at h
    | some m =>
      simp only [hp] at h
      by_cases hlt : r.startedAt < m.startedAt
      · rw [if_pos hlt] at h; cases h
      · rw [if_neg hlt] at h; cases h

/-- The row picked by `pickLatest` is one of the candidates. -/
theorem pickLatest_mem :
    ∀ (l : List SyncLogRow) (m : SyncLogRow), pickLatest l = some m → m ∈ l := by
  intro l
  induction l with
  | nil => intro m h; cases h
  | cons r rest ih =>
    intro m h
    simp only [pickLatest] at h
    cases hp : pickLatest rest with
    | none =>
      simp only [hp] at h
      cases h
      exact List.mem_cons_self _ _
    | some m' =>
      simp only [hp] at h
      by_cases hlt : r.startedAt < m'.startedAt
      · rw [if_pos hlt] at h
        cases h
        exact List.mem_cons_of_mem _ (ih _ hp)
      · rw [if_neg hlt] at h
        cases h
        exact List.mem_cons_self _ _

/-- The row picked by `pickLatest` has a maximal `startedAt`. -/
theorem pickLatest_max :
    ∀ (l : List SyncLogRow) (m : SyncLogRow), pickLatest l = some m →
      ∀ x ∈ l, x.startedAt ≤ m.startedAt := by
  intro l
  induction l with
  | nil => intro m _ x hx; cases hx
  | cons r rest ih =>
    intro m h x hx
    simp only [pickLatest] at h
    cases hp : pickLatest rest with
    | none =>
      simp only [hp] at h
      cases h
      rw [pickLatest_eq_none rest hp] at hx
      rcases List.mem_cons.mp hx with rfl | hx'
      · exact le_refl _
      · cases hx'
    | some m' =>
      simp only [hp] at h
      by_cases hlt : r.startedAt < m'.startedAt
      · rw [if_pos hlt] at h
        cases h
        rcases List.mem_cons.mp hx with rfl | hx'
        · exact le_of_lt hlt
        · exact ih _ hp x hx'
      · rw [if_neg hlt] at h
        cases h
        rcases List.mem_cons.mp hx with rfl | hx'
        · exact le_refl _
        · exact le_trans (ih _ hp x hx') (not_lt.mp hlt)

/-- C8: the sync eligibility gate.  When no PENDING/SUCCESS run exists for
the account (ERROR runs are ignored), the account is eligible; otherwise,
with `r` a most recent such run, the account is eligible iff
now ≥ r.startedAt + 5 minutes, and when ineligible the reported next
eligible time is exactly r.startedAt + 5 minutes. -/
theorem c8_cooldown_gate :
    (∀ (uid : String) (now : Int) (logs : List SyncLogRow),
        logs.filter (eligibleLogFilter uid) = [] →
        canUserSync uid now logs = (true, none)) ∧
    (∀ (uid : String) (now : Int) (logs : List SyncLogRow) (r : SyncLogRow),
        r ∈ logs → eligibleLogFilter uid r = true →
        (∀ x ∈ logs, eligibleLogFilter uid x = true → x.startedAt ≤ r.startedAt) →
        canUserSync uid now logs =
          if now < r.startedAt + 5 * 60000 then
            (false, some (r.startedAt + 5 * 60000))
          else (true, none)) := by
  constructor
  · intro uid now logs h
    simp only [canUserSync, h, pickLatest]
  · intro uid now logs r hmem hr hmax
    have hrf : r ∈ logs.filter (eligibleLogFilter uid) :=
      List.mem_filter.mpr ⟨hmem, hr⟩
    cases hp : pickLatest (logs.filter (eligibleLogFilter uid)) with
    | none =>
      rw [pickLatest_eq_none _ hp] at hrf
      cases hrf
    | some m =>
      have hm := pickLatest_mem _ _ hp
      have h1 : m.startedAt ≤ r.startedAt :=
        hmax m (List.mem_filter.mp hm).1 (List.mem_filter.mp hm).2
      have h2 : r.startedAt ≤ m.startedAt := pickLatest_max _ _ hp r hrf
      have heq : m.startedAt = r.startedAt := le_antisymm h1 h2
      simp only [canUserSync, hp, heq]

/-- C8 (witness): with a single successful run started at time 1000, a
check at time 0 is refused with next eligible time 301000. -/
theorem c8_cooldown_gate_witness :
    canUserSync ("u1") 0
        [⟨"u1", SteamSyncStatus.SUCCESS, some 1, some 0, some 1, some 0, none, 1000, some 2000⟩] =
      (false, some 301000) := by
  have h := c8_cooldown_gate.2 ("u1") 0
    [⟨"u1", SteamSyncStatus.SUCCESS, some 1, some 0, some 1, some 0, none, 1000, some 2000⟩]
    ⟨"u1", SteamSyncStatus.SUCCESS, some 1, some 0, some 1, some 0, none, 1000, some 2000⟩
    (List.mem_cons_self _ _) (by decide)
    (by intro x hx _; rw [List.eq_of_mem_singleton hx])
  simpa using h

/-- Dropping from the front removes nothing when no element satisfies the
predicate. -/
theorem dropWhile_eq_self_of_forall (p : α → Bool) (l : List α)
    (h : ∀ x ∈ l, p x = false) : l.dropWhile p = l := by
  cases l with
  | nil => rfl
  | cons a l =>
    rw [List.dropWhile_cons, h a (List.mem_cons_self _ _)]
    simp

/-- On a list sorted in nondecreasing order, dropping the
strictly-older-than-`c` timestamps from the front removes exactly the
elements below `c`, wherever they sit. -/
theorem dropWhile_lt_eq_filter (c : Int) :
    ∀ (l : List Int), List.Sorted (· ≤ ·) l →
      l.dropWhile (fun t => t < c) = l.filter (fun t => c ≤ t) := by
  intro l
  induction l with
  | nil => intro _; rfl
  | cons a l ih =>
    intro h
    rw [List.sorted_cons] at h
    by_cases hac : a < c
    · have h1 : decide (a < c) = true := by simpa using hac
      have h2 : decide (c ≤ a) = false := by simpa using not_le.mpr hac
      rw [List.dropWhile_cons, List.filter_cons, h1, h2]
      simpa using ih h.2
    · have h1 : decide (a < c) = false := by simpa using hac
      have h2 : decide (c ≤ a) = true := by simpa using not_lt.mp hac
      have hfil : l.filter (fun t => c ≤ t) = l := by
        apply List.filter_eq_self.mpr
        intro x hx
        simpa using le_trans (not_lt.mp hac) (h.1 x hx)
      rw [List.dropWhile_cons, List.filter_cons, h1, h2]
      simp [hfil]

/-- Counting the timestamps at or after a cutoff and those before it
partitions the list. -/
theorem countP_split (c : Int) :
    ∀ l : List Int, l.countP (fun t => c ≤ t) + l.countP (fun t => t < c) = l.length := by
  intro l
  induction l with
  | nil => rfl
  | cons a l ih =>
    by_cases h : c ≤ a
    · have h1 : decide (c ≤ a) = true := by simpa using h
      have h2 : decide (a < c) = false := by simpa using not_lt.mpr h
      simp only [List.countP_cons, List.length_cons, h1, h2, if_true, if_false,
        Bool.false_eq_true, Bool.true_eq_false, eq_self_iff_true]
      omega
    · have h1 : decide (c ≤ a) = false := by simpa using h
      have h2 : decide (a < c) = true := by simpa using not_le.mp h
      simp only [List.countP_cons, List.length_cons, h1, h2, if_true, if_false,
        Bool.false_eq_true, Bool.true_eq_false, eq_self_iff_true]
      omega

/-- Guarded-call runs never prune when every call is within 60 seconds of
every stored timestamp and of every other call: the outcomes are then a
saturating counter — accepted while fewer than 200 timestamps are stored,
refused afterwards. -/
theorem simulateCalls_results :
    ∀ (calls s : List Int),
      (∀ c ∈ calls, ∀ x ∈ s, c - 60000 ≤ x) →
      (∀ a ∈ calls, ∀ b ∈ calls, a - b ≤ 60000) →
      (simulateCalls calls s).1 =
        (List.range calls.length).map (fun i => decide (s.length + i < 200)) := by
  intro calls
  induction calls with
  | nil => intro s _ _; rfl
  | cons c rest ih =>
    intro s hs hp
    have hpruned : s.dropWhile (fun t => t < c - 60000) = s := by
      apply dropWhile_eq_self_of_forall
      intro x hx
      simpa using hs c (List.mem_cons_self _ _) x hx
    by_cases hlen : 200 ≤ s.length
    · have hstep : checkRateLimit c s = (false, s) := by
        simp only [checkRateLimit, hpruned]
        rw [if_pos hlen]
      have hr := ih s (fun c' hc' x hx => hs c' (List.mem_cons_of_mem _ hc') x hx)
        (fun a ha b hb => hp a (List.mem_cons_of_mem _ ha) b (List.mem_cons_of_mem _ hb))
      simp only [simulateCalls, hstep]
      rw [hr]
      simp only [List.length_cons, List.range_succ_eq_map, List.map_cons, List.map_map]
      refine congrArg₂ List.cons ?_ ?_
      · symm
        simp only [Nat.add_zero, decide_eq_false_iff_not]
        omega
      · apply List.map_congr_left
        intro i _
        simp only [Function.comp_apply]
        have hA : decide (s.length + i < 200) = false := by
          simp only [decide_eq_false_iff_not]
          omega
        have hB : decide (s.length + (i + 1) < 200) = false := by
          simp only [decide_eq_false_iff_not]
          omega
        rw [hA, hB]
    · have hstep : checkRateLimit c s = (true, s ++ [c]) := by
        simp only [checkRateLimit, hpruned]
        rw [if_neg hlen]
      have hs' : ∀ c' ∈ rest, ∀ x ∈ s ++ [c], c' - 60000 ≤ x := by
        intro c' hc' x hx
        rcases List.mem_append.mp hx with hx1 | hx1
        · exact hs c' (List.mem_cons_of_mem _ hc') x hx1
        · rw [List.eq_of_mem_singleton hx1]
          have := hp c' (List.mem_cons_of_mem _ hc') c (List.mem_cons_self _ _)
          omega
      have hr := ih (s ++ [c]) hs'
        (fun a ha b hb => hp a (List.mem_cons_of_mem _ ha) b (List.mem_cons_of_mem _ hb))
      simp only [simulateCalls, hstep]
      rw [hr]
      simp only [List.length_cons, List.length_append, List.length_singleton,
        List.length_nil, List.range_succ_eq_map, List.map_cons, List.map_map]
      refine congrArg₂ List.cons ?_ ?_
      · symm
        simp only [Nat.add_zero, decide_eq_true_eq]
        omega
      · apply List.map_congr_left
        intro i _
        simp only [Function.comp_apply]
        exact decide_eq_decide.mpr (by omega)

set_option maxRecDepth 10000 in
/-- C4: the catalog-client rate limiter.  On a sorted timestamp list one
guarded call drops exactly the timestamps strictly older than 60 seconds,
refuses without further change when 200 or more remain, and otherwise
appends the current time and proceeds; a run of calls that all lie within
one 60-second window (starting from an empty list) accepts exactly the
first 200 and refuses from the 201st on; and once 60 seconds have elapsed
past some calls, the remaining capacity grows by exactly the number of
timestamps that aged out. -/
theorem c4_rate_limiter :
    (∀ (now : Int) (ts : List Int), List.Sorted (· ≤ ·) ts →
        checkRateLimit now ts =
          (if 200 ≤ (ts.filter (fun t => now - 60000 ≤ t)).length then
            (false, ts.filter (fun t => now - 60000 ≤ t))
           else (true, ts.filter (fun t => now - 60000 ≤ t) ++ [now]))) ∧
    (∀ calls : List Int, (∀ a ∈ calls, ∀ b ∈ calls, a - b ≤ 60000) →
        (simulateCalls calls []).1 =
          (List.range calls.length).map (fun i => decide (i < 200))) ∧
    (∀ calls : List Int, (∀ a ∈ calls, ∀ b ∈ calls, a - b ≤ 60000) →
        calls.length = 201 →
        (simulateCalls calls []).1 = List.replicate 200 true ++ [false]) ∧
    (∀ (now : Int) (ts : List Int), List.Sorted (· ≤ ·) ts → ts.length ≤ 200 →
        (getRateLimitStatus now ts).1 =
          (200 - ts.length) + ts.countP (fun t => t < now - 60000)) := by
  have key2 : ∀ calls : List Int, (∀ a ∈ calls, ∀ b ∈ calls, a - b ≤ 60000) →
      (simulateCalls calls []).1 =
        (List.range calls.length).map (fun i => decide (i < 200)) := by
    intro calls hp
    have h := simulateCalls_results calls [] (fun c _ x hx => absurd hx (List.not_mem_nil x)) hp
    rw [h]
    apply List.map_congr_left
    intro i _
    simp
  refine ⟨?_, key2, ?_, ?_⟩
  · intro now ts h
    simp only [checkRateLimit, dropWhile_lt_eq_filter (now - 60000) ts h]
  · intro calls hp hlen
    rw [key2 calls hp, hlen]
    decide
  · intro now ts hsort hlen
    simp only [getRateLimitStatus, dropWhile_lt_eq_filter (now - 60000) ts hsort]
    have hcnt : (ts.filter (fun t => now - 60000 ≤ t)).length +
        ts.countP (fun t => t < now - 60000) = ts.length := by
      rw [← List.countP_eq_length_filter]
      exact countP_split (now - 60000) ts
    have hle := List.countP_le_length
      (p := fun t : Int => decide (t < now - 60000)) (l := ts)
    omega

set_option maxRecDepth 10000 in
/-- C4 (witness): one sorted two-element list pruned and accepted at time
70000; a 201-call burst at one instant accepting exactly 200 calls; the
freed-capacity count at time 70000. -/
theorem c4_rate_limiter_witness :
    checkRateLimit 70000 [5000, 30000] = (true, [30000, 70000]) ∧
    (simulateCalls (List.replicate 201 0) []).1 = List.replicate 200 true ++ [false] ∧
    (getRateLimitStatus 70000 [5000, 30000]).1 = 199 := by
  refine ⟨?_, ?_, ?_⟩
  · have h := c4_rate_limiter.1 70000 [5000, 30000] (by decide)
    rw [h]
    decide
  · exact c4_rate_limiter.2.2.1 (List.replicate 201 0)
      (by
        intro a ha b hb
        rw [List.eq_of_mem_replicate ha, List.eq_of_mem_replicate hb]
        norm_num)
      (by rw [List.length_replicate])
  · have h := c4_rate_limiter.2.2.2 70000 [5000, 30000] (by decide) (by norm_num)
    rw [h]
    decide

/-- After any well-formed callback presenting token `s`, the token is no
longer in the store: every path of the token check deletes it (missing
keys delete as a no-op). -/
theorem verifyCallback_consumes (s : String) (a : Option String) (t : Int)
    (store : CsrfStore) :
    ((verifyCallback true (some s) a t store).2) s = none := by
  simp only [verifyCallback]
  cases hl : store s with
  | none => simp [csrfDelete]
  | some e =>
    by_cases hexp : e.expires < t
    · simp [hexp, csrfDelete]
    · cases a with
      | none => simp [hexp, csrfDelete]
      | some sid =>
        by_cases hv : isValidSteamId sid = true
        · simp [hexp, hv, csrfDelete]
        · simp [hexp, hv, csrfDelete]

/-- A callback presenting a token that is not in the store fails the
token check. -/
theorem verifyCallback_rejects_missing (s : String) (a : Option String)
    (t : Int) (store : CsrfStore) (h : store s = none) :
    (verifyCallback true (some s) a t store).1 =
      authFailure ("Invalid or expired CSRF token") := by
  simp [verifyCallback, h]

/-- The store lookup right after issuing a linking token. -/
theorem generateAuthUrl_lookup (uid s : String) (t0 : Int) (store : CsrfStore) :
    ((generateAuthUrl uid s t0 store).2) s =
      some { token := s, expires := t0 + 600000, userId := uid } := by
  simp [generateAuthUrl, csrfSet]

/-- C5: anti-forgery linking tokens are single-use and expiring.  A token
issued by `generateAuthUrl` and presented before its 10-minute expiry
passes the token check (succeeding outright when the OpenID assertion
yields a valid Steam id); every well-formed callback presenting a token
removes it from the store; a callback presenting an absent token is
rejected; presenting the token strictly after the expiry is rejected and
removes it; hence a second callback presenting the same token after any
first one is rejected. -/
theorem c5_csrf_single_use :
    (∀ (uid s : String) (t0 t : Int) (store : CsrfStore) (sid : String),
        ¬(t0 + 600000 < t) → isValidSteamId sid = true →
        (verifyCallback true (some s) (some sid) t
            ((generateAuthUrl uid s t0 store).2)).1 =
          { steamId := sid, success := true, error := none, userId := some uid }) ∧
    (∀ (s : String) (a : Option String) (t : Int) (store : CsrfStore),
        ((verifyCallback true (some s) a t store).2) s = none) ∧
    (∀ (s : String) (a : Option String) (t : Int) (store : CsrfStore),
        store s = none →
        (verifyCallback true (some s) a t store).1 =
          authFailure ("Invalid or expired CSRF token")) ∧
    (∀ (uid s : String) (t0 t : Int) (a : Option String) (store : CsrfStore),
        t0 + 600000 < t →
        (verifyCallback true (some s) a t ((generateAuthUrl uid s t0 store).2)).1 =
            authFailure ("Invalid or expired CSRF token") ∧
          ((verifyCallback true (some s) a t ((generateAuthUrl uid s t0 store).2)).2) s =
            none) ∧
    (∀ (s : String) (a1 a2 : Option String) (t1 t2 : Int) (store : CsrfStore),
        ((verifyCallback true (some s) a2 t2
            ((verifyCallback true (some s) a1 t1 store).2)).1).success = false) := by
  refine ⟨?_, verifyCallback_consumes, verifyCallback_rejects_missing, ?_, ?_⟩
  · intro uid s t0 t store sid hexp hvalid
    simp [verifyCallback, generateAuthUrl_lookup, hexp, hvalid]
  · intro uid s t0 t a store hexp
    constructor
    · simp [verifyCallback, generateAuthUrl_lookup, hexp]
    · exact verifyCallback_consumes s a t _
  · intro s a1 a2 t1 t2 store
    rw [verifyCallback_rejects_missing s a2 t2 _ (verifyCallback_consumes s a1 t1 store)]
    rfl

/-- C5 (witness): a token issued at time 0 is accepted at time 1000 with a
valid assertion; a token never issued is rejected; the same token
presented at time 700001 (past the 10-minute expiry) is refused. -/
theorem c5_csrf_single_use_witness :
    (verifyCallback true (some ("tok")) (some ("76561197960287930")) 1000
        ((generateAuthUrl ("u1") ("tok") 0 (fun _ => none)).2)).1 =
      { steamId := "76561197960287930", success := true, error := none,
        userId := some ("u1") } ∧
    (verifyCallback true (some ("tok")) none 5 (fun _ => none)).1 =
      authFailure ("Invalid or expired CSRF token") ∧
    ((verifyCallback true (some ("tok")) (some ("76561197960287930")) 700001
        ((generateAuthUrl ("u1") ("tok") 0 (fun _ => none)).2)).1).success = false := by
  refine ⟨?_, ?_, ?_⟩
  · exact c5_csrf_single_use.1 ("u1") ("tok") 0 1000 (fun _ => none)
      ("76561197960287930") (by norm_num) (by decide)
  · exact c5_csrf_single_use.2.2.1 ("tok") none 5 (fun _ => none) rfl
  · have h := (c5_csrf_single_use.2.2.2.1 ("u1") ("tok") 0 700001
      (some ("76561197960287930")) (fun _ => none) (by norm_num)).1
    rw [h]
    rfl

/-- C6 (counterexample): the round trip fails for the payload with an
empty account id — the source's truthiness check `decoded.userId &&
decoded.email` treats the empty string as missing and returns null. -/
theorem c6_token_verification_counterexample :
    verifyAccessToken (generateAccessToken ("") ("a@b.c") 0) 0 = none ∧
    (none : Option (String × String)) ≠ some ("", "a@b.c") := by
  constructor
  · decide
  · decide

/-- C6 (amended): for every payload whose account id and email are both
non-empty, verifying the freshly issued access token returns exactly that
identity; and every token that fails the library's signature, expiry,
issuer or audience checks — a wrong-secret (tampered) token, an expired
token, malformed input — makes `verifyAccessToken` return `none` (the
`try/catch` converts the throw) rather than propagate an exception. -/
theorem c6_token_verification :
    (∀ (u e : String) (t : Int), u ≠ "" → e ≠ "" →
        verifyAccessToken (generateAccessToken u e t) t = some (u, e)) ∧
    (∀ (tok : Jwt) (t : Int) (err : String),
        jwtVerify tok JWT_SECRET ("gametracker-api") ("gametracker-client") t =
          Except.error err →
        verifyAccessToken tok t = none) ∧
    (∀ (claims : JwtClaims) (s i a : String) (expMs t : Int), s ≠ JWT_SECRET →
        verifyAccessToken (Jwt.signed claims s i a expMs) t = none) ∧
    (∀ (claims : JwtClaims) (s i a : String) (expMs t : Int), expMs ≤ t →
        verifyAccessToken (Jwt.signed claims s i a expMs) t = none) ∧
    (∀ (raw : String) (t : Int), verifyAccessToken (Jwt.malformed raw) t = none) := by
  refine ⟨?_, ?_, ?_, ?_, ?_⟩
  · intro u e t hu he
    have hexp : ¬(t + 7 * 86400000 ≤ t) := by omega
    simp [verifyAccessToken, generateAccessToken, jwtVerify, hu, he, hexp]
  · intro tok t err h
    simp [verifyAccessToken, h]
  · intro claims s i a expMs t hs
    simp [verifyAccessToken, jwtVerify, hs]
  · intro claims s i a expMs t hexp
    by_cases hs : s = JWT_SECRET
    · subst hs
      simp [verifyAccessToken, jwtVerify, hexp]
    · simp [verifyAccessToken, jwtVerify, hs]
  · intro raw t
    rfl

/-- C6 (witness): a concrete non-empty payload round-trips; a malformed
token and a wrong-secret token verify to `none`. -/
theorem c6_token_verification_witness :
    verifyAccessToken (generateAccessToken ("u1") ("a@b.c") 0) 0 =
      some ("u1", "a@b.c") ∧
    verifyAccessToken (Jwt.malformed ("zzz")) 0 = none ∧
    verifyAccessToken
      (Jwt.signed ⟨some ("u1"), some ("a@b.c")⟩ ("wrong-secret")
        ("gametracker-api") ("gametracker-client") 999) 0 = none :=
  ⟨c6_token_verification.1 ("u1") ("a@b.c") 0 (by decide) (by decide),
   c6_token_verification.2.2.2.2 ("zzz") 0,
   c6_token_verification.2.2.1 ⟨some ("u1"), some ("a@b.c")⟩ ("wrong-secret")
     ("gametracker-api") ("gametracker-client") 999 0 (by decide)⟩

end GameTracker
